import Mathlib

/-!
Verification of the network-connection and transaction-orchestration layer
(`FabricRuntimeConnection`) of the blockchain VS Code extension.

The TypeScript class is shallowly embedded: JavaScript `Map`s become
association lists with `Map.set` insertion-order semantics, the fabric SDK
client is abstracted as an `Env` record of query/response oracles, thrown
errors become `Except JSError`, and the orchestration side effects of the
endorse/order/commit sequence are recorded as an explicit `Effect` trace.
-/

namespace FRC

/-- Node types, from `FabricNodeType` (peer / orderer / certificate authority). -/
inductive FabricNodeType
  | peer
  | orderer
  | certificateAuthority
deriving DecidableEq, Repr

/-- A configured network node, from `FabricNode` (connection metadata). -/
structure FabricNode where
  name : String
  url : String
  type : FabricNodeType
deriving DecidableEq, Repr

/-- JavaScript `Map.has`. -/
def mapHas {α : Type} (m : List (String × α)) (k : String) : Bool :=
  m.any (fun e => e.1 = k)

/-- JavaScript `Map.get`, as an `Option`. -/
def mapGet {α : Type} (m : List (String × α)) (k : String) : Option α :=
  (m.find? (fun e => e.1 = k)).map Prod.snd

/-- JavaScript `Map.set`: overwrite in place if the key exists (keeping its
position in iteration order), otherwise append at the end. -/
def mapSet {α : Type} (m : List (String × α)) (k : String) (v : α) : List (String × α) :=
  if m.any (fun e => e.1 = k) then
    m.map (fun e => if e.1 = k then (k, v) else e)
  else
    m ++ [(k, v)]

/-- The connection's registry state: the `nodes`, `peers`, `orderers` and
`certificateAuthorities` maps of `FabricRuntimeConnection`.  Client handles
(`Client.Peer`, `Client.Orderer`, `FabricCAServices`) are identified by the
URL they were eagerly constructed from. -/
structure ConnState where
  nodes : List (String × FabricNode)
  peers : List (String × String)
  orderers : List (String × String)
  certificateAuthorities : List (String × String)
deriving DecidableEq, Repr

/-- The state of a freshly constructed connection: all four maps empty. -/
def emptyConnState : ConnState := ⟨[], [], [], []⟩

/-- One iteration of the loop in `connect`: construct the handle matching the
node's type, record it in the typed map, and record the node itself. -/
def connectNode (s : ConnState) (node : FabricNode) : ConnState :=
  let s1 : ConnState :=
    match node.type with
    | .peer => { s with peers := mapSet s.peers node.name node.url }
    | .orderer => { s with orderers := mapSet s.orderers node.name node.url }
    | .certificateAuthority =>
        { s with certificateAuthorities := mapSet s.certificateAuthorities node.name node.url }
  { s1 with nodes := mapSet s1.nodes node.name node }

/-- `connect`: iterate over the runtime's node list, eagerly constructing one
client handle per node.  Note that the existing maps are NOT cleared first. -/
def connect (s : ConnState) (nodeList : List FabricNode) : ConnState :=
  nodeList.foldl connectNode s

/-- `disconnect`: clear all four maps. -/
def disconnect (_s : ConnState) : ConnState := emptyConnState

/-- A thrown JavaScript error: either a peer-returned error object rethrown
as-is, or a fresh `new Error(msg)`. -/
inductive JSError
  | fromPeer (message : String)
  | message (msg : String)
deriving DecidableEq, Repr

/-- A successful proposal response: `{ response: { status, message, payload } }`. -/
structure ProposalResponse where
  status : Nat
  message : String
  payload : List Nat
deriving DecidableEq, Repr

/-- One element of the `proposalResponses` array: an `Error` object or a
proposal response. -/
inductive PropResult
  | err (message : String)
  | resp (r : ProposalResponse)
deriving DecidableEq, Repr

/-- Outcome delivered by the channel event hub for the registered transaction
ID: a transaction event with a validation code and block number, or a
transport error of the event hub itself. -/
inductive CommitEvent
  | txEvent (code : String) (blockNumber : Nat)
  | hubError (message : String)
deriving DecidableEq, Repr

/-- `{ name, version }` record from a chaincode query response. -/
structure ChaincodeInfo where
  name : String
  version : String
deriving DecidableEq, Repr

/-- The network environment seen through the fabric SDK: query results and
proposal/broadcast/commit outcomes.  A fixed `Env` is a fixed network
topology and response behaviour. -/
structure Env where
  queryChannels : String → Except String (List String)
  queryInstantiated : String → String → Except String (List ChaincodeInfo)
  queryInstalled : String → Except String (List ChaincodeInfo)
  installResponse : PropResult
  instantiateResponses : List PropResult
  upgradeResponses : List PropResult
  broadcastStatus : String
  commitEventOutcome : CommitEvent
  txId : String

/-- Error thrown by `setNodeContext` and `getNode` for an unknown node. -/
def nodeMissingError (nodeName : String) : JSError :=
  .message ("The Fabric node " ++ nodeName ++ " does not exist")

/-- Error thrown by `getPeer` for an unknown peer. -/
def peerMissingError (peerName : String) : JSError :=
  .message ("The Fabric peer " ++ peerName ++ " does not exist")

/-- Error thrown by `getChannel` for an undiscovered channel. -/
def channelMissingError (channelName : String) : JSError :=
  .message ("The Fabric channel " ++ channelName ++ " does not exist")

/-- `setNodeContext`: looks the node up in the registry (the wallet and
identity rebinding is an external collaborator assumed to succeed). -/
def setNodeContext (s : ConnState) (nodeName : String) : Except JSError Unit :=
  if mapHas s.nodes nodeName then .ok () else .error (nodeMissingError nodeName)

/-- `getPeer`: look the peer handle up, throwing when absent. -/
def getPeer (s : ConnState) (peerName : String) : Except JSError String :=
  match mapGet s.peers peerName with
  | some p => .ok p
  | none => .error (peerMissingError peerName)

/-- Lexicographic code-unit comparison of strings, as the default JavaScript
`Array.sort()` comparator orders strings. -/
def charListLe : List Char → List Char → Bool
  | [], _ => true
  | _ :: _, [] => false
  | a :: as, b :: bs =>
    if a.toNat < b.toNat then true
    else if b.toNat < a.toNat then false
    else charListLe as bs

/-- `a <= b` in the JavaScript string ordering. -/
def stringLe (a b : String) : Bool := charListLe a.data b.data

/-- `getAllChannelNames(peerName)`: switch identity, query the peer's joined
channels, and return the channel IDs sorted (JavaScript `Array.sort()`). -/
def getAllChannelNames (s : ConnState) (env : Env) (peerName : String) :
    Except JSError (List String) :=
  match setNodeContext s peerName with
  | .error e => .error e
  | .ok _ =>
    match getPeer s peerName with
    | .error e => .error e
    | .ok _ =>
      match env.queryChannels peerName with
      | .error msg => .error (.message msg)
      | .ok channelNames => .ok (channelNames.insertionSort (fun a b => stringLe a b = true))

/-- `channel.peers.set(peerName, peer)` restricted to the key list: append the
peer name if absent, keep the list unchanged if present. -/
def peersSet (ps : List String) (p : String) : List String :=
  if p ∈ ps then ps else ps ++ [p]

/-- Inner loop of `getAllChannels`: record peer `p` as a member of every
channel name it reported, creating channel entries on first sight. -/
def addChannelsForPeer (acc : List (String × List String)) (p : String) :
    List String → List (String × List String)
  | [] => acc
  | c :: cs =>
    let acc2 : List (String × List String) :=
      if mapHas acc c then
        acc.map (fun e => if e.1 = c then (e.1, peersSet e.2 p) else e)
      else
        acc ++ [(c, [p])]
    addChannelsForPeer acc2 p cs

/-- Outer loop of `getAllChannels`: query each peer in registry iteration
order for its channel names; any query error propagates immediately. -/
def discoverChannels (s : ConnState) (env : Env) :
    List (String × String) → List (String × List String) →
    Except JSError (List (String × List String))
  | [], acc => .ok acc
  | (peerName, _) :: rest, acc =>
    match getAllChannelNames s env peerName with
    | .error e => .error e
    | .ok channelNames => discoverChannels s env rest (addChannelsForPeer acc peerName channelNames)

/-- A discovered channel, from `FabricChannel`: its name, its member peer
names in discovery order (the keys of `channel.peers`, which are also the
keys of `channel.eventHubs`), and the bound orderer. -/
structure FabricChannel where
  name : String
  peerNames : List String
  ordererName : String
deriving DecidableEq, Repr

/-- `getAllChannels`: union the per-peer channel lists, then bind the first
registered orderer to every channel (`Array.from(this.orderers)[0]`; with no
orderer registered that destructuring of `undefined` throws a `TypeError`). -/
def getAllChannels (s : ConnState) (env : Env) : Except JSError (List FabricChannel) :=
  match discoverChannels s env s.peers [] with
  | .error e => .error e
  | .ok [] => .ok []
  | .ok (c :: cs) =>
    match s.orderers with
    | [] => .error (.message "TypeError: no orderer entry to destructure")
    | (ordererName, _) :: _ =>
      .ok ((c :: cs).map (fun e => ⟨e.1, e.2, ordererName⟩))

/-- `getChannel`: rebuild the whole channel map, then look one channel up. -/
def getChannel (s : ConnState) (env : Env) (channelName : String) :
    Except JSError FabricChannel :=
  match getAllChannels s env with
  | .error e => .error e
  | .ok channels =>
    match channels.find? (fun c => c.name = channelName) with
    | some c => .ok c
    | none => .error (channelMissingError channelName)

/-- `getInstantiatedChaincode(channelName)`: pick the channel's first member
peer, switch identity to it, and query the instantiated chaincodes. -/
def getInstantiatedChaincode (s : ConnState) (env : Env) (channelName : String) :
    Except JSError (List ChaincodeInfo) :=
  match getChannel s env channelName with
  | .error e => .error e
  | .ok channel =>
    match channel.peerNames with
    | [] => .error (.message "TypeError: no peer entry to destructure")
    | peerName :: _ =>
      match setNodeContext s peerName with
      | .error e => .error e
      | .ok _ =>
        match env.queryInstantiated peerName channelName with
        | .error msg => .error (.message msg)
        | .ok ccs => .ok ccs

/-- `getChaincode(name, chaincodeArray)`: `Array.find` comparing the `name`
field only — the version is ignored. -/
def getChaincode (name : String) (chaincodeArray : List ChaincodeInfo) :
    Option ChaincodeInfo :=
  chaincodeArray.find? (fun chaincode => chaincode.name = name)

/-- `needle` is an initial segment of `hay`. -/
def charListStartsWith : List Char → List Char → Bool
  | [], _ => true
  | _ :: _, [] => false
  | a :: as, b :: bs => a = b && charListStartsWith as bs

/-- `needle` occurs as a contiguous segment of `hay`. -/
def charListContains (needle : List Char) : List Char → Bool
  | [] => needle.isEmpty
  | b :: bs => charListStartsWith needle (b :: bs) || charListContains needle bs

/-- Case-sensitive substring test for `error.message.match(/access denied/)`. -/
def containsAccessDenied (msg : String) : Bool :=
  charListContains ("access denied".toList) msg.toList

/-- One step of the response-flattening loop of `getInstalledChaincode`:
append the version to the name's list, creating the entry on first sight. -/
def addInstalledVersion (m : List (String × List String)) (c : ChaincodeInfo) :
    List (String × List String) :=
  if mapHas m c.name then
    m.map (fun e => if e.1 = c.name then (e.1, e.2 ++ [c.version]) else e)
  else
    m ++ [(c.name, [c.version])]

/-- `getInstalledChaincode(peerName)`: query the peer's installed chaincodes;
an error whose message matches `/access denied/` degrades to the empty map,
any other error is rethrown; successful responses are grouped by name. -/
def getInstalledChaincode (s : ConnState) (env : Env) (peerName : String) :
    Except JSError (List (String × List String)) :=
  match setNodeContext s peerName with
  | .error e => .error e
  | .ok _ =>
    match getPeer s peerName with
    | .error e => .error e
    | .ok _ =>
      match env.queryInstalled peerName with
      | .error msg =>
        if msg != "" && containsAccessDenied msg then .ok []
        else .error (.message msg)
      | .ok ccs => .ok (ccs.foldl addInstalledVersion [])

/-- `installChaincode(packageRegistryEntry, peerName)`: look the peer up,
switch identity, send the install proposal and check the single response. -/
def installChaincode (s : ConnState) (env : Env) (peerName : String) :
    Except JSError Unit :=
  match getPeer s peerName with
  | .error e => .error e
  | .ok _ =>
    match setNodeContext s peerName with
    | .error e => .error e
    | .ok _ =>
      match env.installResponse with
      | .err m => .error (.fromPeer m)
      | .resp r => if r.status ≠ 200 then .error (.message r.message) else .ok ()

/-- Observable side effects of the shared endorse/order/commit sequence. -/
inductive Effect
  | sendProposal
  | registerListener
  | sendBroadcast
  | awaitCommit
deriving DecidableEq, Repr

/-- The endorsement-validation loop of `instantiateUpgradeChaincode`: an
`Error` element is thrown as-is, a non-200 status throws the peer-supplied
message, and the surviving responses are collected in order. -/
def validateResponses : List PropResult → Except JSError (List ProposalResponse)
  | [] => .ok []
  | .err m :: _ => .error (.fromPeer m)
  | .resp r :: rest =>
    if r.status ≠ 200 then .error (.message r.message)
    else
      match validateResponses rest with
      | .error e => .error e
      | .ok good => .ok (r :: good)

/-- The message of the error thrown on a non-SUCCESS broadcast response. -/
def orderingFailureMessage (txId status : String) : String :=
  "Failed to send peer responses for transaction " ++ txId ++
    " to orderer. Response status: " ++ status

/-- The message of the error the commit listener rejects with on a
validation code other than VALID. -/
def validationFailureMessage (txId code : String) (blockNumber : Nat) : String :=
  "Transaction " ++ txId ++ " failed validation: code = " ++ code ++
    ", block number = " ++ toString blockNumber

/-- `instantiateUpgradeChaincode`: the shared endorse → order → commit
sequence, returning the result paired with the trace of orchestration
effects in the order they happen. -/
def instantiateUpgradeChaincode (s : ConnState) (env : Env)
    (name version channelName fcn : String) (args : List String) (upgrade : Bool) :
    Except JSError (Option (List Nat)) × List Effect :=
  match getChannel s env channelName with
  | .error e => (.error e, [])
  | .ok channel =>
    match channel.peerNames with
    | [] => (.error (.message "TypeError: no peer entry to destructure"), [])
    | peerName :: _ =>
      match setNodeContext s peerName with
      | .error e => (.error e, [])
      | .ok _ =>
        match validateResponses
            (if upgrade then env.upgradeResponses else env.instantiateResponses) with
        | .error e => (.error e, [.sendProposal])
        | .ok goodProposalResponses =>
          if env.broadcastStatus ≠ "SUCCESS" then
            (.error (.message (orderingFailureMessage env.txId env.broadcastStatus)),
             [.sendProposal, .registerListener, .sendBroadcast])
          else
            match env.commitEventOutcome with
            | .hubError m =>
              (.error (.message m),
               [.sendProposal, .registerListener, .sendBroadcast, .awaitCommit])
            | .txEvent code blockNumber =>
              if code ≠ "VALID" then
                (.error (.message (validationFailureMessage env.txId code blockNumber)),
                 [.sendProposal, .registerListener, .sendBroadcast, .awaitCommit])
              else
                match goodProposalResponses with
                | [] =>
                  (.error (.message "TypeError: no proposal response to read payload from"),
                   [.sendProposal, .registerListener, .sendBroadcast, .awaitCommit])
                | g :: _ =>
                  (.ok (if g.payload.length > 0 then some g.payload else none),
                   [.sendProposal, .registerListener, .sendBroadcast, .awaitCommit])

/-- The fail-fast error of `instantiateChaincode`. -/
def alreadyInstantiatedMessage : String :=
  "The name of the contract you tried to instantiate is already instantiated"

/-- The fail-fast error of `upgradeChaincode`. -/
def notInstantiatedMessage : String :=
  "The contract you tried to upgrade with has no previous versions instantiated"

/-- `instantiateChaincode`: query the instantiated chaincodes, fail fast if a
chaincode of that name exists, else run the shared sequence. -/
def instantiateChaincode (s : ConnState) (env : Env)
    (chaincodeName version channelName fcn : String) (args : List String) :
    Except JSError (Option (List Nat)) × List Effect :=
  match getInstantiatedChaincode s env channelName with
  | .error e => (.error e, [])
  | .ok instantiated =>
    match getChaincode chaincodeName instantiated with
    | some _ => (.error (.message alreadyInstantiatedMessage), [])
    | none => instantiateUpgradeChaincode s env chaincodeName version channelName fcn args false

/-- `upgradeChaincode`: query the instantiated chaincodes, fail fast if no
chaincode of that name exists, else run the shared sequence. -/
def upgradeChaincode (s : ConnState) (env : Env)
    (chaincodeName version channelName fcn : String) (args : List String) :
    Except JSError (Option (List Nat)) × List Effect :=
  match getInstantiatedChaincode s env channelName with
  | .error e => (.error e, [])
  | .ok instantiated =>
    match getChaincode chaincodeName instantiated with
    | none => (.error (.message notInstantiatedMessage), [])
    | some _ => instantiateUpgradeChaincode s env chaincodeName version channelName fcn args true

/-- A proposal response the validation loop rejects: an error object, or a
non-200 status. -/
def isBadResponse : PropResult → Bool
  | .err _ => true
  | .resp r => r.status != 200

/-- Sample topology: one peer, one orderer, one certificate authority. -/
def samplePeerNode : FabricNode := ⟨"peer0", "grpc://localhost:7051", .peer⟩

/-- Sample orderer node. -/
def sampleOrdererNode : FabricNode := ⟨"orderer0", "grpc://localhost:7050", .orderer⟩

/-- Sample certificate authority node. -/
def sampleCANode : FabricNode := ⟨"ca0", "http://localhost:7054", .certificateAuthority⟩

/-- Registry state after connecting with the sample topology. -/
def sampleState : ConnState :=
  connect emptyConnState [samplePeerNode, sampleOrdererNode, sampleCANode]

/-- A healthy network environment over the sample topology: one channel, no
instantiated chaincode, all responses successful. -/
def baseEnv : Env where
  queryChannels := fun _ => .ok ["mychannel"]
  queryInstantiated := fun _ _ => .ok []
  queryInstalled := fun _ => .ok []
  installResponse := .resp ⟨200, "OK", []⟩
  instantiateResponses := [.resp ⟨200, "OK", [1, 2]⟩]
  upgradeResponses := [.resp ⟨200, "OK", [1, 2]⟩]
  broadcastStatus := "SUCCESS"
  commitEventOutcome := .txEvent "VALID" 5
  txId := "tx1"

/-- The sample environment with chaincode `cc1` version `0.0.1` already
instantiated on every channel. -/
def envInstantiatedCC1 : Env :=
  { baseEnv with queryInstantiated := fun _ _ => .ok [⟨"cc1", "0.0.1"⟩] }

theorem charListLe_total : ∀ l1 l2 : List Char,
    charListLe l1 l2 = true ∨ charListLe l2 l1 = true
  | [], _ => .inl rfl
  | _ :: _, [] => .inr rfl
  | a :: as, b :: bs => by
    by_cases hab : a.toNat < b.toNat
    · left; simp [charListLe, hab]
    · by_cases hba : b.toNat < a.toNat
      · right; simp [charListLe, hba]
      · rcases charListLe_total as bs with h | h
        · left; simp [charListLe, hab, hba, h]
        · right; simp [charListLe, hba, hab, h]

theorem charListLe_trans : ∀ l1 l2 l3 : List Char,
    charListLe l1 l2 = true → charListLe l2 l3 = true → charListLe l1 l3 = true
  | [], _, _ => fun _ _ => rfl
  | _ :: _, [], _ => fun h1 _ => by simp [charListLe] at h1
  | _ :: _, _ :: _, [] => fun _ h2 => by simp [charListLe] at h2
  | a :: as, b :: bs, c :: cs => fun h1 h2 => by
    simp only [charListLe] at h1 h2 ⊢
    by_cases hab : a.toNat < b.toNat <;> by_cases hbc : b.toNat < c.toNat
    · simp [Nat.lt_trans hab hbc]
    · by_cases hcb : c.toNat < b.toNat
      · rw [if_neg hbc, if_pos hcb] at h2; cases h2
      · have hbceq : b.toNat = c.toNat :=
          Nat.le_antisymm (Nat.le_of_not_lt hcb) (Nat.le_of_not_lt hbc)
        simp [show a.toNat < c.toNat by omega]
    · by_cases hba : b.toNat < a.toNat
      · rw [if_neg hab, if_pos hba] at h1; cases h1
      · have habeq : a.toNat = b.toNat :=
          Nat.le_antisymm (Nat.le_of_not_lt hba) (Nat.le_of_not_lt hab)
        simp [show a.toNat < c.toNat by omega]
    · by_cases hba : b.toNat < a.toNat
      · rw [if_neg hab, if_pos hba] at h1; cases h1
      · by_cases hcb : c.toNat < b.toNat
        · rw [if_neg hbc, if_pos hcb] at h2; cases h2
        · rw [if_neg hab, if_neg hba] at h1
          rw [if_neg hbc, if_neg hcb] at h2
          have habeq : a.toNat = b.toNat :=
            Nat.le_antisymm (Nat.le_of_not_lt hba) (Nat.le_of_not_lt hab)
          have hbceq : b.toNat = c.toNat :=
            Nat.le_antisymm (Nat.le_of_not_lt hcb) (Nat.le_of_not_lt hbc)
          rw [if_neg (show ¬a.toNat < c.toNat by omega),
            if_neg (show ¬c.toNat < a.toNat by omega)]
          exact charListLe_trans as bs cs h1 h2

instance : IsTotal String (fun a b => stringLe a b = true) :=
  ⟨fun a b => charListLe_total a.data b.data⟩

instance : IsTrans String (fun a b => stringLe a b = true) :=
  ⟨fun a b c => charListLe_trans a.data b.data c.data⟩

theorem setNodeContext_ok (s : ConnState) (nodeName : String)
    (h : mapHas s.nodes nodeName = true) : setNodeContext s nodeName = .ok () := by
  simp [setNodeContext, h]

theorem getPeer_ok (s : ConnState) (peerName : String)
    (h : mapHas s.peers peerName = true) : ∃ u, getPeer s peerName = .ok u := by
  unfold mapHas at h
  rw [List.any_eq_true] at h
  obtain ⟨x, hx, hpx⟩ := h
  have hs : (s.peers.find? (fun e => e.1 = peerName)).isSome := by
    rw [List.find?_isSome]
    exact ⟨x, hx, hpx⟩
  unfold getPeer mapGet
  rcases hf : s.peers.find? (fun e => e.1 = peerName) with _ | v
  · rw [hf] at hs; simp at hs
  · exact ⟨v.2, by rw [hf]; rfl⟩

/-- C6: `installChaincode` succeeds exactly when the single install proposal
response has status 200; an error object is thrown as-is; a non-200 status
throws an error carrying the peer's message. -/
theorem installChaincode_status200 (s : ConnState) (env : Env) (peerName : String)
    (hp : mapHas s.peers peerName = true) (hn : mapHas s.nodes peerName = true) :
    (installChaincode s env peerName = .ok () ↔
      ∃ r : ProposalResponse, env.installResponse = .resp r ∧ r.status = 200)
    ∧ (∀ m, env.installResponse = .err m →
        installChaincode s env peerName = .error (.fromPeer m))
    ∧ (∀ r : ProposalResponse, env.installResponse = .resp r → r.status ≠ 200 →
        installChaincode s env peerName = .error (.message r.message)) := by
  obtain ⟨u, hu⟩ := getPeer_ok s peerName hp
  have hctx : setNodeContext s peerName = .ok () := setNodeContext_ok s peerName hn
  refine ⟨?_, ?_, ?_⟩
  · constructor
    · intro hok
      unfold installChaincode at hok
      rw [hu, hctx] at hok
      rcases henv : env.installResponse with m | r
      · rw [henv] at hok; exact absurd hok (by simp)
      · rw [henv] at hok
        refine ⟨r, rfl, ?_⟩
        by_contra hne
        simp [hne] at hok
    · rintro ⟨r, hr, hst⟩
      unfold installChaincode
      rw [hu, hctx, hr]
      simp [hst]
  · intro m hm
    unfold installChaincode
    rw [hu, hctx, hm]
  · intro r hr hst
    unfold installChaincode
    rw [hu, hctx, hr]
    simp [hst]

theorem installChaincode_status200_witness :
    mapHas sampleState.peers "peer0" = true
    ∧ mapHas sampleState.nodes "peer0" = true
    ∧ installChaincode sampleState baseEnv "peer0" = .ok ()
    ∧ installChaincode sampleState { baseEnv with installResponse := .err "boom" } "peer0"
        = .error (.fromPeer "boom")
    ∧ installChaincode sampleState { baseEnv with installResponse := .resp ⟨500, "bad package", []⟩ } "peer0"
        = .error (.message "bad package") :=
  ⟨by decide, by decide,
    (installChaincode_status200 sampleState baseEnv "peer0" (by decide) (by decide)).1.mpr
      ⟨⟨200, "OK", []⟩, rfl, rfl⟩,
    (installChaincode_status200 sampleState { baseEnv with installResponse := .err "boom" } "peer0"
      (by decide) (by decide)).2.1 "boom" rfl,
    (installChaincode_status200 sampleState
      { baseEnv with installResponse := .resp ⟨500, "bad package", []⟩ } "peer0"
      (by decide) (by decide)).2.2 ⟨500, "bad package", []⟩ rfl (by decide)⟩

theorem containsAccessDenied_empty : containsAccessDenied "" = false := by decide

theorem guardTrue_of_containsAccessDenied (msg : String)
    (h : containsAccessDenied msg = true) :
    (msg != "" && containsAccessDenied msg) = true := by
  rw [h, Bool.and_true]
  by_cases he : msg = ""
  · subst he
    rw [containsAccessDenied_empty] at h
    cases h
  · simp [bne_iff_ne, he]

/-- C7: an installed-chaincode query failure whose message matches the
access-denied pattern makes `getInstalledChaincode` return the empty
mapping; any other query failure propagates to the caller. -/
theorem getInstalledChaincode_accessDenied (s : ConnState) (env : Env) (peerName : String)
    (hn : mapHas s.nodes peerName = true) (hp : mapHas s.peers peerName = true) :
    (∀ msg, env.queryInstalled peerName = .error msg → containsAccessDenied msg = true →
      getInstalledChaincode s env peerName = .ok [])
    ∧ (∀ msg, env.queryInstalled peerName = .error msg → containsAccessDenied msg = false →
      getInstalledChaincode s env peerName = .error (.message msg)) := by
  obtain ⟨u, hu⟩ := getPeer_ok s peerName hp
  have hctx : setNodeContext s peerName = .ok () := setNodeContext_ok s peerName hn
  constructor
  · intro msg hq hcad
    unfold getInstalledChaincode
    rw [hctx, hu, hq]
    simp [guardTrue_of_containsAccessDenied msg hcad]
  · intro msg hq hcad
    unfold getInstalledChaincode
    rw [hctx, hu, hq]
    simp [hcad]

theorem getInstalledChaincode_accessDenied_witness :
    containsAccessDenied "access denied: not an administrator" = true
    ∧ getInstalledChaincode sampleState
        { baseEnv with queryInstalled := fun _ => .error "access denied: not an administrator" }
        "peer0" = .ok []
    ∧ containsAccessDenied "REQUEST_TIMEOUT" = false
    ∧ getInstalledChaincode sampleState
        { baseEnv with queryInstalled := fun _ => .error "REQUEST_TIMEOUT" }
        "peer0" = .error (.message "REQUEST_TIMEOUT") :=
  ⟨by decide,
   (getInstalledChaincode_accessDenied sampleState
      { baseEnv with queryInstalled := fun _ => .error "access denied: not an administrator" }
      "peer0" (by decide) (by decide)).1 "access denied: not an administrator" rfl (by decide),
   by decide,
   (getInstalledChaincode_accessDenied sampleState
      { baseEnv with queryInstalled := fun _ => .error "REQUEST_TIMEOUT" }
      "peer0" (by decide) (by decide)).2 "REQUEST_TIMEOUT" rfl (by decide)⟩

theorem getChaincode_isSome_of_name_mem (name : String) (ccs : List ChaincodeInfo)
    (h : ∃ c ∈ ccs, c.name = name) : ∃ c, getChaincode name ccs = some c := by
  have hs : (ccs.find? (fun c => c.name = name)).isSome := by
    rw [List.find?_isSome]
    obtain ⟨c, hc, hn⟩ := h
    exact ⟨c, hc, by simp [hn]⟩
  unfold getChaincode
  rcases hf : ccs.find? (fun c => c.name = name) with _ | c
  · rw [hf] at hs; simp at hs
  · exact ⟨c, hf⟩

theorem getChaincode_eq_none (name : String) (ccs : List ChaincodeInfo)
    (h : ∀ c ∈ ccs, c.name ≠ name) : getChaincode name ccs = none := by
  unfold getChaincode
  rw [List.find?_eq_none]
  intro x hx
  simp [h x hx]

theorem instantiate_error_of_found (s : ConnState) (env : Env)
    (chaincodeName version channelName fcn : String) (args : List String)
    (ccs : List ChaincodeInfo)
    (hq : getInstantiatedChaincode s env channelName = .ok ccs)
    (hfound : ∃ c, getChaincode chaincodeName ccs = some c) :
    instantiateChaincode s env chaincodeName version channelName fcn args =
      (.error (.message alreadyInstantiatedMessage), []) := by
  obtain ⟨c, hc⟩ := hfound
  simp only [instantiateChaincode, hq, hc]

/-- C1: if some version of a chaincode of that name is already instantiated
on the channel, `instantiateChaincode` fails with the already-instantiated
error and performs none of the endorse/order/commit side effects: the
returned effect trace is empty. -/
theorem instantiateChaincode_failsFast_alreadyInstantiated (s : ConnState) (env : Env)
    (chaincodeName version channelName fcn : String) (args : List String)
    (ccs : List ChaincodeInfo)
    (hq : getInstantiatedChaincode s env channelName = .ok ccs)
    (hmem : ∃ c ∈ ccs, c.name = chaincodeName) :
    instantiateChaincode s env chaincodeName version channelName fcn args =
      (.error (.message alreadyInstantiatedMessage), []) :=
  instantiate_error_of_found s env chaincodeName version channelName fcn args ccs hq
    (getChaincode_isSome_of_name_mem chaincodeName ccs hmem)

theorem instantiateChaincode_failsFast_alreadyInstantiated_witness :
    getInstantiatedChaincode sampleState envInstantiatedCC1 "mychannel" = .ok [⟨"cc1", "0.0.1"⟩]
    ∧ instantiateChaincode sampleState envInstantiatedCC1 "cc1" "0.0.1" "mychannel" "init" [] =
        (.error (.message alreadyInstantiatedMessage), []) :=
  ⟨by rfl,
   instantiateChaincode_failsFast_alreadyInstantiated sampleState envInstantiatedCC1
     "cc1" "0.0.1" "mychannel" "init" [] [⟨"cc1", "0.0.1"⟩] (by rfl) (by decide)⟩

/-- C9: if no chaincode of that name is instantiated on the channel,
`upgradeChaincode` fails with the not-instantiated error and performs none of
the endorse/order/commit side effects: the returned effect trace is empty. -/
theorem upgradeChaincode_failsFast_notInstantiated (s : ConnState) (env : Env)
    (chaincodeName version channelName fcn : String) (args : List String)
    (ccs : List ChaincodeInfo)
    (hq : getInstantiatedChaincode s env channelName = .ok ccs)
    (hnone : ∀ c ∈ ccs, c.name ≠ chaincodeName) :
    upgradeChaincode s env chaincodeName version channelName fcn args =
      (.error (.message notInstantiatedMessage), []) := by
  have hc : getChaincode chaincodeName ccs = none := getChaincode_eq_none chaincodeName ccs hnone
  simp only [upgradeChaincode, hq, hc]

theorem upgradeChaincode_failsFast_notInstantiated_witness :
    getInstantiatedChaincode sampleState baseEnv "mychannel" = .ok []
    ∧ upgradeChaincode sampleState baseEnv "cc1" "0.0.2" "mychannel" "init" [] =
        (.error (.message notInstantiatedMessage), []) :=
  ⟨by rfl,
   upgradeChaincode_failsFast_notInstantiated sampleState baseEnv
     "cc1" "0.0.2" "mychannel" "init" [] [] (by rfl) (by decide)⟩

/-- C10: the already-instantiated check of `instantiateChaincode` compares
chaincode names only and ignores versions: whenever some entry with the
requested name is instantiated at any version, the call fails for every
requested version, including versions different from the instantiated one. -/
theorem instantiateCheck_ignoresVersion (s : ConnState) (env : Env)
    (chaincodeName channelName fcn : String) (args : List String)
    (ccs : List ChaincodeInfo) (instVersion : String)
    (hq : getInstantiatedChaincode s env channelName = .ok ccs)
    (hmem : ChaincodeInfo.mk chaincodeName instVersion ∈ ccs) :
    ∀ version : String,
      instantiateChaincode s env chaincodeName version channelName fcn args =
        (.error (.message alreadyInstantiatedMessage), []) := by
  intro version
  refine instantiate_error_of_found s env chaincodeName version channelName fcn args ccs hq ?_
  exact getChaincode_isSome_of_name_mem chaincodeName ccs ⟨⟨chaincodeName, instVersion⟩, hmem, rfl⟩

theorem instantiateCheck_ignoresVersion_witness :
    ("9.9.9" : String) ≠ "0.0.1"
    ∧ getInstantiatedChaincode sampleState envInstantiatedCC1 "mychannel" = .ok [⟨"cc1", "0.0.1"⟩]
    ∧ instantiateChaincode sampleState envInstantiatedCC1 "cc1" "9.9.9" "mychannel" "init" [] =
        (.error (.message alreadyInstantiatedMessage), []) :=
  ⟨by decide, by rfl,
   instantiateCheck_ignoresVersion sampleState envInstantiatedCC1
     "cc1" "mychannel" "init" [] [⟨"cc1", "0.0.1"⟩] "0.0.1" (by rfl) (by decide) "9.9.9"⟩

theorem validateResponses_error_of_bad (rs : List PropResult)
    (h : ∃ r ∈ rs, isBadResponse r = true) :
    ∃ e, validateResponses rs = .error e := by
  induction rs with
  | nil => obtain ⟨r, hr, _⟩ := h; cases hr
  | cons a rest ih =>
    cases a with
    | err m => exact ⟨.fromPeer m, rfl⟩
    | resp r =>
      by_cases hst : r.status = 200
      · obtain ⟨b, hb, hbad⟩ := h
        rcases List.mem_cons.mp hb with hb1 | hb2
        · subst hb1
          simp [isBadResponse, hst] at hbad
        · obtain ⟨e, he⟩ := ih ⟨b, hb2, hbad⟩
          refine ⟨e, ?_⟩
          simp only [validateResponses]
          rw [if_neg (not_not_intro hst), he]
      · exact ⟨.message r.message, by simp only [validateResponses]; rw [if_pos hst]⟩

/-- C3: if any endorsement response of an instantiate or upgrade transaction
is an error object or has a non-200 status, the shared sequence fails — with
exactly the validation loop's error (the error object itself, or an error
carrying the peer-supplied message) whenever the proposal was sent — and no
broadcast to the orderer ever happens. -/
theorem endorsementFailure_blocksOrdering (s : ConnState) (env : Env)
    (name version channelName fcn : String) (args : List String) (upgrade : Bool)
    (hbad : ∃ r ∈ (if upgrade then env.upgradeResponses else env.instantiateResponses),
      isBadResponse r = true) :
    ∃ e,
      (instantiateUpgradeChaincode s env name version channelName fcn args upgrade).1 = .error e
      ∧ Effect.sendBroadcast ∉
          (instantiateUpgradeChaincode s env name version channelName fcn args upgrade).2
      ∧ (Effect.sendProposal ∈
            (instantiateUpgradeChaincode s env name version channelName fcn args upgrade).2 →
          validateResponses (if upgrade then env.upgradeResponses else env.instantiateResponses)
            = .error e) := by
  obtain ⟨e, he⟩ := validateResponses_error_of_bad _ hbad
  rcases h1 : getChannel s env channelName with e1 | channel
  · refine ⟨e1, ?_, ?_, ?_⟩ <;> simp [instantiateUpgradeChaincode, h1]
  · rcases h2 : channel.peerNames with _ | ⟨peerName, rest⟩
    · refine ⟨.message "TypeError: no peer entry to destructure", ?_, ?_, ?_⟩ <;>
        simp [instantiateUpgradeChaincode, h1, h2]
    · rcases h3 : setNodeContext s peerName with e3 | u
      · refine ⟨e3, ?_, ?_, ?_⟩ <;> simp [instantiateUpgradeChaincode, h1, h2, h3]
      · refine ⟨e, ?_, ?_, ?_⟩ <;> simp [instantiateUpgradeChaincode, h1, h2, h3, he]

theorem getAllChannelNames_congr (s : ConnState) (env2 env : Env) (peerName : String)
    (h : env2.queryChannels = env.queryChannels) :
    getAllChannelNames s env2 peerName = getAllChannelNames s env peerName := by
  unfold getAllChannelNames
  rw [h]

theorem discoverChannels_congr (s : ConnState) (env2 env : Env)
    (h : env2.queryChannels = env.queryChannels) :
    ∀ (ps : List (String × String)) (acc : List (String × List String)),
      discoverChannels s env2 ps acc = discoverChannels s env ps acc := by
  intro ps
  induction ps with
  | nil => intro acc; rfl
  | cons a rest ih =>
    intro acc
    obtain ⟨peerName, handle⟩ := a
    simp only [discoverChannels]
    rw [getAllChannelNames_congr s env2 env peerName h]
    rcases hq : getAllChannelNames s env peerName with e | l
    · rfl
    · exact ih _

theorem getAllChannels_congr (s : ConnState) (env2 env : Env)
    (h : env2.queryChannels = env.queryChannels) :
    getAllChannels s env2 = getAllChannels s env := by
  unfold getAllChannels
  rw [discoverChannels_congr s env2 env h]

theorem getChannel_congr (s : ConnState) (env2 env : Env) (channelName : String)
    (h : env2.queryChannels = env.queryChannels) :
    getChannel s env2 channelName = getChannel s env channelName := by
  unfold getChannel
  rw [getAllChannels_congr s env2 env h]

theorem instantiateUpgrade_broadcastFail (s : ConnState) (env : Env)
    (name version channelName fcn : String) (args : List String) (upgrade : Bool)
    (hb : env.broadcastStatus ≠ "SUCCESS") :
    instantiateUpgradeChaincode s env name version channelName fcn args upgrade =
      match getChannel s env channelName with
      | .error e => (.error e, [])
      | .ok channel =>
        match channel.peerNames with
        | [] => (.error (.message "TypeError: no peer entry to destructure"), [])
        | peerName :: _ =>
          match setNodeContext s peerName with
          | .error e => (.error e, [])
          | .ok _ =>
            match validateResponses
                (if upgrade then env.upgradeResponses else env.instantiateResponses) with
            | .error e => (.error e, [.sendProposal])
            | .ok _ =>
              (.error (.message (orderingFailureMessage env.txId env.broadcastStatus)),
               [.sendProposal, .registerListener, .sendBroadcast]) := by
  rcases h1 : getChannel s env channelName with e1 | channel
  · simp [instantiateUpgradeChaincode, h1]
  · rcases h2 : channel.peerNames with _ | ⟨peerName, rest⟩
    · simp [instantiateUpgradeChaincode, h1, h2]
    · rcases h3 : setNodeContext s peerName with e3 | u
      · simp [instantiateUpgradeChaincode, h1, h2, h3]
      · rcases h4 : validateResponses
            (if upgrade then env.upgradeResponses else env.instantiateResponses) with e4 | good
        · simp [instantiateUpgradeChaincode, h1, h2, h3, h4]
        · simp only [instantiateUpgradeChaincode, h1, h2, h3, h4]
          rw [if_pos hb]

theorem broadcastFail_traceShape (s : ConnState) (env : Env)
    (name version channelName fcn : String) (args : List String) (upgrade : Bool)
    (hb : env.broadcastStatus ≠ "SUCCESS") :
    (instantiateUpgradeChaincode s env name version channelName fcn args upgrade).2 = []
    ∨ (instantiateUpgradeChaincode s env name version channelName fcn args upgrade).2
        = [.sendProposal]
    ∨ (instantiateUpgradeChaincode s env name version channelName fcn args upgrade).2
        = [.sendProposal, .registerListener, .sendBroadcast] := by
  rw [instantiateUpgrade_broadcastFail s env name version channelName fcn args upgrade hb]
  rcases h1 : getChannel s env channelName with e1 | channel
  · simp [h1]
  · rcases h2 : channel.peerNames with _ | ⟨peerName, rest⟩
    · simp [h1, h2]
    · rcases h3 : setNodeContext s peerName with e3 | u
      · simp [h1, h2, h3]
      · rcases h4 : validateResponses
            (if upgrade then env.upgradeResponses else env.instantiateResponses) with e4 | good
        · simp [h1, h2, h3, h4]
        · simp [h1, h2, h3, h4]

theorem awaitCommit_requires_broadcastSuccess (s : ConnState) (env : Env)
    (name version channelName fcn : String) (args : List String) (upgrade : Bool)
    (hmem : Effect.awaitCommit ∈
      (instantiateUpgradeChaincode s env name version channelName fcn args upgrade).2) :
    env.broadcastStatus = "SUCCESS" := by
  by_contra hbs
  rcases broadcastFail_traceShape s env name version channelName fcn args upgrade hbs
    with h | h | h <;> rw [h] at hmem <;> simp at hmem

/-- C4: a broadcast acknowledgement status other than SUCCESS makes the
operation fail — with the ordering error whenever the broadcast was reached —
the commit-event wait never happens, the outcome is unchanged by whatever the
commit event would later deliver for the transaction, and the commit-event
wait only ever happens after a successful broadcast acknowledgement. -/
theorem orderingFailure_neverCommitted (s : ConnState) (env : Env)
    (name version channelName fcn : String) (args : List String) (upgrade : Bool)
    (hb : env.broadcastStatus ≠ "SUCCESS") :
    (∃ e,
      (instantiateUpgradeChaincode s env name version channelName fcn args upgrade).1 = .error e
      ∧ (Effect.sendBroadcast ∈
            (instantiateUpgradeChaincode s env name version channelName fcn args upgrade).2 →
          e = .message (orderingFailureMessage env.txId env.broadcastStatus)))
    ∧ Effect.awaitCommit ∉
        (instantiateUpgradeChaincode s env name version channelName fcn args upgrade).2
    ∧ (∀ outcome : CommitEvent,
        instantiateUpgradeChaincode s { env with commitEventOutcome := outcome }
            name version channelName fcn args upgrade
          = instantiateUpgradeChaincode s env name version channelName fcn args upgrade)
    ∧ (∀ env2 : Env,
        Effect.awaitCommit ∈
            (instantiateUpgradeChaincode s env2 name version channelName fcn args upgrade).2 →
          env2.broadcastStatus = "SUCCESS") := by
  refine ⟨?_, ?_, ?_, ?_⟩
  · rw [instantiateUpgrade_broadcastFail s env name version channelName fcn args upgrade hb]
    rcases h1 : getChannel s env channelName with e1 | channel
    · refine ⟨e1, ?_, ?_⟩ <;> simp [h1]
    · rcases h2 : channel.peerNames with _ | ⟨peerName, rest⟩
      · refine ⟨.message "TypeError: no peer entry to destructure", ?_, ?_⟩ <;> simp [h1, h2]
      · rcases h3 : setNodeContext s peerName with e3 | u
        · refine ⟨e3, ?_, ?_⟩ <;> simp [h1, h2, h3]
        · rcases h4 : validateResponses
              (if upgrade then env.upgradeResponses else env.instantiateResponses) with e4 | good
          · refine ⟨e4, ?_, ?_⟩ <;> simp [h1, h2, h3, h4]
          · refine ⟨.message (orderingFailureMessage env.txId env.broadcastStatus), ?_, ?_⟩ <;>
              simp [h1, h2, h3, h4]
  · intro hmem
    exact hb (awaitCommit_requires_broadcastSuccess s env name version channelName fcn args
      upgrade hmem)
  · intro outcome
    rw [instantiateUpgrade_broadcastFail s { env with commitEventOutcome := outcome }
        name version channelName fcn args upgrade hb,
      instantiateUpgrade_broadcastFail s env name version channelName fcn args upgrade hb,
      getChannel_congr s { env with commitEventOutcome := outcome } env channelName rfl]
  · intro env2 hmem
    exact awaitCommit_requires_broadcastSuccess s env2 name version channelName fcn args
      upgrade hmem

theorem orderingFailure_neverCommitted_witness :
    ("SERVICE_UNAVAILABLE" : String) ≠ "SUCCESS"
    ∧ (instantiateUpgradeChaincode sampleState
        { baseEnv with broadcastStatus := "SERVICE_UNAVAILABLE" }
        "cc1" "0.0.1" "mychannel" "init" [] false).1
      = .error (.message (orderingFailureMessage "tx1" "SERVICE_UNAVAILABLE"))
    ∧ Effect.awaitCommit ∉
        (instantiateUpgradeChaincode sampleState
          { baseEnv with broadcastStatus := "SERVICE_UNAVAILABLE" }
          "cc1" "0.0.1" "mychannel" "init" [] false).2
    ∧ instantiateUpgradeChaincode sampleState
        { baseEnv with broadcastStatus := "SERVICE_UNAVAILABLE",
                       commitEventOutcome := .txEvent "VALID" 7 }
        "cc1" "0.0.1" "mychannel" "init" [] false
      = instantiateUpgradeChaincode sampleState
          { baseEnv with broadcastStatus := "SERVICE_UNAVAILABLE" }
          "cc1" "0.0.1" "mychannel" "init" [] false := by
  obtain ⟨⟨e, h1, h2⟩, h3, h4, h5⟩ := orderingFailure_neverCommitted sampleState
    { baseEnv with broadcastStatus := "SERVICE_UNAVAILABLE" }
    "cc1" "0.0.1" "mychannel" "init" [] false (by decide)
  have hmem : Effect.sendBroadcast ∈
      (instantiateUpgradeChaincode sampleState
        { baseEnv with broadcastStatus := "SERVICE_UNAVAILABLE" }
        "cc1" "0.0.1" "mychannel" "init" [] false).2 := by
    rw [show (instantiateUpgradeChaincode sampleState
        { baseEnv with broadcastStatus := "SERVICE_UNAVAILABLE" }
        "cc1" "0.0.1" "mychannel" "init" [] false).2
      = [Effect.sendProposal, Effect.registerListener, Effect.sendBroadcast] from rfl]
    simp
  refine ⟨by decide, ?_, h3, h4 (.txEvent "VALID" 7)⟩
  rw [h1, h2 hmem]
  rfl

theorem getAllChannelNames_ok_query (s : ConnState) (env : Env) (peerName : String)
    (l : List String) (h : getAllChannelNames s env peerName = .ok l) :
    ∃ cl, env.queryChannels peerName = .ok cl := by
  rcases h1 : setNodeContext s peerName with e1 | u
  · simp [getAllChannelNames, h1] at h
  · rcases h2 : getPeer s peerName with e2 | p
    · simp [getAllChannelNames, h1, h2] at h
    · rcases h3 : env.queryChannels peerName with e3 | chans
      · simp [getAllChannelNames, h1, h2, h3] at h
      · exact ⟨chans, rfl⟩

theorem getAllChannelNames_ok_sorted (s : ConnState) (env : Env) (peerName : String)
    (l : List String) (h : getAllChannelNames s env peerName = .ok l) :
    l.Sorted (fun a b => stringLe a b = true) := by
  rcases h1 : setNodeContext s peerName with e1 | u
  · simp [getAllChannelNames, h1] at h
  · rcases h2 : getPeer s peerName with e2 | p
    · simp [getAllChannelNames, h1, h2] at h
    · rcases h3 : env.queryChannels peerName with e3 | chans
      · simp [getAllChannelNames, h1, h2, h3] at h
      · simp only [getAllChannelNames, h1, h2, h3, Except.ok.injEq] at h
        rw [← h]
        exact List.sorted_insertionSort _ chans

/-- C8: for a fixed topology, per-peer channel-name lists come out
lexicographically sorted, and discovery is deterministic: any environment
with the same channel-query behaviour (in particular, a repeated run against
an unchanged network) produces an identical channel map, with identical
per-channel peer membership and enumeration order, and identical per-peer
channel-name lists. -/
theorem channelDiscovery_sorted_deterministic (s : ConnState) (env : Env)
    (peerName : String) (l : List String)
    (h : getAllChannelNames s env peerName = .ok l) :
    l.Sorted (fun a b => stringLe a b = true)
    ∧ ∀ env2 : Env, env2.queryChannels = env.queryChannels →
        getAllChannels s env2 = getAllChannels s env
        ∧ getAllChannelNames s env2 peerName = getAllChannelNames s env peerName :=
  ⟨getAllChannelNames_ok_sorted s env peerName l h,
   fun env2 hq => ⟨getAllChannels_congr s env2 env hq,
     getAllChannelNames_congr s env2 env peerName hq⟩⟩

theorem channelDiscovery_sorted_deterministic_witness :
    (["channela", "channelb"] : List String).Sorted (fun a b => stringLe a b = true)
    ∧ getAllChannels sampleState
        { baseEnv with
            queryChannels := fun _ => .ok ["channelb", "channela"]
            txId := "tx2" }
      = getAllChannels sampleState
          { baseEnv with queryChannels := fun _ => .ok ["channelb", "channela"] } := by
  have h : getAllChannelNames sampleState
      { baseEnv with queryChannels := fun _ => .ok ["channelb", "channela"] } "peer0"
      = .ok ["channela", "channelb"] := by rfl
  obtain ⟨h1, h2⟩ := channelDiscovery_sorted_deterministic sampleState
    { baseEnv with queryChannels := fun _ => .ok ["channelb", "channela"] }
    "peer0" ["channela", "channelb"] h
  refine ⟨h1, ?_⟩
  exact (h2
    { baseEnv with
        queryChannels := fun _ => .ok ["channelb", "channela"]
        txId := "tx2" }
    rfl).1

theorem mapSet_fresh {α : Type} (m : List (String × α)) (k : String) (v : α)
    (h : mapHas m k = false) : mapSet m k v = m ++ [(k, v)] := by
  unfold mapHas at h
  simp [mapSet, h]

theorem mapHas_append {α : Type} (m1 m2 : List (String × α)) (k : String) :
    mapHas (m1 ++ m2) k = (mapHas m1 k || mapHas m2 k) := by
  simp [mapHas, List.any_append]

theorem mapHas_appendSingle_false {α : Type} (m : List (String × α)) (k key : String) (v : α)
    (h1 : mapHas m key = false) (h2 : k ≠ key) : mapHas (m ++ [(k, v)]) key = false := by
  rw [mapHas_append, h1]
  simp [mapHas, h2]

theorem mapHas_mapSet {α : Type} (m : List (String × α)) (k2 k : String) (v : α)
    (h : mapHas m k = true) : mapHas (mapSet m k2 v) k = true := by
  unfold mapSet
  by_cases hc : m.any (fun e => e.1 = k2)
  · rw [if_pos hc]
    unfold mapHas at h ⊢
    rw [List.any_eq_true] at h ⊢
    obtain ⟨x, hx, hpx⟩ := h
    refine ⟨if x.1 = k2 then (k2, v) else x, List.mem_map_of_mem _ hx, ?_⟩
    by_cases hxk : x.1 = k2
    · simp only [if_pos hxk]
      have hk : x.1 = k := of_decide_eq_true hpx
      simp [← hxk, hk]
    · simp only [if_neg hxk]
      exact hpx
  · rw [if_neg hc]
    rw [mapHas_append]
    simp [h]

theorem connectNode_preserves (s : ConnState) (n : FabricNode) (k : String) :
    (mapHas s.nodes k = true → mapHas (connectNode s n).nodes k = true)
    ∧ (mapHas s.peers k = true → mapHas (connectNode s n).peers k = true)
    ∧ (mapHas s.orderers k = true → mapHas (connectNode s n).orderers k = true)
    ∧ (mapHas s.certificateAuthorities k = true →
        mapHas (connectNode s n).certificateAuthorities k = true) := by
  rcases htype : n.type with _ | _ | _ <;> simp only [connectNode, htype]
  · exact ⟨fun h => mapHas_mapSet _ _ _ _ h, fun h => mapHas_mapSet _ _ _ _ h, id, id⟩
  · exact ⟨fun h => mapHas_mapSet _ _ _ _ h, id, fun h => mapHas_mapSet _ _ _ _ h, id⟩
  · exact ⟨fun h => mapHas_mapSet _ _ _ _ h, id, id, fun h => mapHas_mapSet _ _ _ _ h⟩

theorem connect_preserves : ∀ (nodeList : List FabricNode) (s : ConnState) (k : String),
    (mapHas s.nodes k = true → mapHas (connect s nodeList).nodes k = true)
    ∧ (mapHas s.peers k = true → mapHas (connect s nodeList).peers k = true)
    ∧ (mapHas s.orderers k = true → mapHas (connect s nodeList).orderers k = true)
    ∧ (mapHas s.certificateAuthorities k = true →
        mapHas (connect s nodeList).certificateAuthorities k = true)
  | [], _, _ => ⟨id, id, id, id⟩
  | n :: rest, s, k => by
    obtain ⟨c1, c2, c3, c4⟩ := connectNode_preserves s n k
    obtain ⟨i1, i2, i3, i4⟩ := connect_preserves rest (connectNode s n) k
    exact ⟨fun h => i1 (c1 h), fun h => i2 (c2 h), fun h => i3 (c3 h), fun h => i4 (c4 h)⟩

theorem connect_extends : ∀ (nodeList : List FabricNode) (s : ConnState),
    (∀ n ∈ nodeList, mapHas s.nodes n.name = false ∧ mapHas s.peers n.name = false
      ∧ mapHas s.orderers n.name = false ∧ mapHas s.certificateAuthorities n.name = false) →
    (nodeList.map FabricNode.name).Nodup →
    (connect s nodeList).nodes = s.nodes ++ nodeList.map (fun n => (n.name, n))
    ∧ (connect s nodeList).peers = s.peers ++
        (nodeList.filter (fun n => n.type = FabricNodeType.peer)).map (fun n => (n.name, n.url))
    ∧ (connect s nodeList).orderers = s.orderers ++
        (nodeList.filter (fun n => n.type = FabricNodeType.orderer)).map
          (fun n => (n.name, n.url))
    ∧ (connect s nodeList).certificateAuthorities = s.certificateAuthorities ++
        (nodeList.filter (fun n => n.type = FabricNodeType.certificateAuthority)).map
          (fun n => (n.name, n.url))
  | [], s, _, _ => by simp [connect]
  | n :: rest, s, hfresh, hnodup => by
    obtain ⟨hn, hp, ho, hc⟩ := hfresh n (List.mem_cons_self n rest)
    have hnodup2 : (rest.map FabricNode.name).Nodup := (List.nodup_cons.mp hnodup).2
    have hnotmem : n.name ∉ rest.map FabricNode.name := (List.nodup_cons.mp hnodup).1
    have hne : ∀ m ∈ rest, n.name ≠ m.name := by
      intro m hm heq
      exact hnotmem (heq ▸ List.mem_map_of_mem FabricNode.name hm)
    have hfresh' : ∀ m ∈ rest, mapHas s.nodes m.name = false ∧ mapHas s.peers m.name = false
        ∧ mapHas s.orderers m.name = false
        ∧ mapHas s.certificateAuthorities m.name = false :=
      fun m hm => hfresh m (List.mem_cons_of_mem n hm)
    have hconn : connect s (n :: rest) = connect (connectNode s n) rest := rfl
    rcases htype : n.type with _ | _ | _
    · have hs1 : connectNode s n = ConnState.mk (mapSet s.nodes n.name n)
          (mapSet s.peers n.name n.url) s.orderers s.certificateAuthorities := by
        simp [connectNode, htype]
      have hfresh2 : ∀ m ∈ rest, mapHas (connectNode s n).nodes m.name = false
          ∧ mapHas (connectNode s n).peers m.name = false
          ∧ mapHas (connectNode s n).orderers m.name = false
          ∧ mapHas (connectNode s n).certificateAuthorities m.name = false := by
        intro m hm
        obtain ⟨h1, h2, h3, h4⟩ := hfresh' m hm
        simp only [hs1]
        refine ⟨?_, ?_, h3, h4⟩
        · rw [mapSet_fresh s.nodes n.name n hn]
          exact mapHas_appendSingle_false _ _ _ _ h1 (hne m hm)
        · rw [mapSet_fresh s.peers n.name n.url hp]
          exact mapHas_appendSingle_false _ _ _ _ h2 (hne m hm)
      obtain ⟨ihn, ihp, iho, ihc⟩ := connect_extends rest (connectNode s n) hfresh2 hnodup2
      rw [hconn]
      refine ⟨?_, ?_, ?_, ?_⟩
      · rw [ihn, hs1]
        simp [mapSet_fresh s.nodes n.name n hn]
      · rw [ihp, hs1]
        simp [mapSet_fresh s.peers n.name n.url hp, htype]
      · rw [iho, hs1]
        simp [htype]
      · rw [ihc, hs1]
        simp [htype]
    · have hs1 : connectNode s n = ConnState.mk (mapSet s.nodes n.name n)
          s.peers (mapSet s.orderers n.name n.url) s.certificateAuthorities := by
        simp [connectNode, htype]
      have hfresh2 : ∀ m ∈ rest, mapHas (connectNode s n).nodes m.name = false
          ∧ mapHas (connectNode s n).peers m.name = false
          ∧ mapHas (connectNode s n).orderers m.name = false
          ∧ mapHas (connectNode s n).certificateAuthorities m.name = false := by
        intro m hm
        obtain ⟨h1, h2, h3, h4⟩ := hfresh' m hm
        simp only [hs1]
        refine ⟨?_, h2, ?_, h4⟩
        · rw [mapSet_fresh s.nodes n.name n hn]
          exact mapHas_appendSingle_false _ _ _ _ h1 (hne m hm)
        · rw [mapSet_fresh s.orderers n.name n.url ho]
          exact mapHas_appendSingle_false _ _ _ _ h3 (hne m hm)
      obtain ⟨ihn, ihp, iho, ihc⟩ := connect_extends rest (connectNode s n) hfresh2 hnodup2
      rw [hconn]
      refine ⟨?_, ?_, ?_, ?_⟩
      · rw [ihn, hs1]
        simp [mapSet_fresh s.nodes n.name n hn]
      · rw [ihp, hs1]
        simp [htype]
      · rw [iho, hs1]
        simp [mapSet_fresh s.orderers n.name n.url ho, htype]
      · rw [ihc, hs1]
        simp [htype]
    · have hs1 : connectNode s n = ConnState.mk (mapSet s.nodes n.name n)
          s.peers s.orderers (mapSet s.certificateAuthorities n.name n.url) := by
        simp [connectNode, htype]
      have hfresh2 : ∀ m ∈ rest, mapHas (connectNode s n).nodes m.name = false
          ∧ mapHas (connectNode s n).peers m.name = false
          ∧ mapHas (connectNode s n).orderers m.name = false
          ∧ mapHas (connectNode s n).certificateAuthorities m.name = false := by
        intro m hm
        obtain ⟨h1, h2, h3, h4⟩ := hfresh' m hm
        simp only [hs1]
        refine ⟨?_, h2, h3, ?_⟩
        · rw [mapSet_fresh s.nodes n.name n hn]
          exact mapHas_appendSingle_false _ _ _ _ h1 (hne m hm)
        · rw [mapSet_fresh s.certificateAuthorities n.name n.url hc]
          exact mapHas_appendSingle_false _ _ _ _ h4 (hne m hm)
      obtain ⟨ihn, ihp, iho, ihc⟩ := connect_extends rest (connectNode s n) hfresh2 hnodup2
      rw [hconn]
      refine ⟨?_, ?_, ?_, ?_⟩
      · rw [ihn, hs1]
        simp [mapSet_fresh s.nodes n.name n hn]
      · rw [ihp, hs1]
        simp [htype]
      · rw [iho, hs1]
        simp [htype]
      · rw [ihc, hs1]
        simp [mapSet_fresh s.certificateAuthorities n.name n.url hc, htype]

/-- C5 counterexample: a connection state holding a peer entry from a
previous load, reconnected with a node list that contains no peer, still
holds the old peer entry and its handle — the registry is not replaced. -/
theorem connect_counterexample :
    (connect (ConnState.mk [] [("oldPeer", "grpc://old:7051")] [] [])
        [sampleOrdererNode]).peers = [("oldPeer", "grpc://old:7051")]
    ∧ ([sampleOrdererNode].filter
        (fun n => n.type = FabricNodeType.peer)).map (fun n => (n.name, n.url)) = []
    ∧ (connect (ConnState.mk [] [("oldPeer", "grpc://old:7051")] [] [])
        [sampleOrdererNode]).peers ≠
        ([sampleOrdererNode].filter
          (fun n => n.type = FabricNodeType.peer)).map (fun n => (n.name, n.url)) := by
  exact ⟨by decide, by decide, by decide⟩

/-- C5 amended: `connect` populates the registry from the node list without
clearing entries of a previous load: starting from an empty registry (fresh
construction or after `disconnect`), nodes, peer handles, orderer handles
and CA handles correspond exactly to the node list, with one eagerly
constructed handle per node; and any registry entry present before `connect`
is still present afterwards. -/
theorem connect_populates (nodeList : List FabricNode)
    (hnodup : (nodeList.map FabricNode.name).Nodup) :
    ((connect emptyConnState nodeList).nodes = nodeList.map (fun n => (n.name, n))
      ∧ (connect emptyConnState nodeList).peers =
          (nodeList.filter (fun n => n.type = FabricNodeType.peer)).map
            (fun n => (n.name, n.url))
      ∧ (connect emptyConnState nodeList).orderers =
          (nodeList.filter (fun n => n.type = FabricNodeType.orderer)).map
            (fun n => (n.name, n.url))
      ∧ (connect emptyConnState nodeList).certificateAuthorities =
          (nodeList.filter (fun n => n.type = FabricNodeType.certificateAuthority)).map
            (fun n => (n.name, n.url)))
    ∧ (∀ (s : ConnState) (k : String),
        (mapHas s.nodes k = true → mapHas (connect s nodeList).nodes k = true)
        ∧ (mapHas s.peers k = true → mapHas (connect s nodeList).peers k = true)
        ∧ (mapHas s.orderers k = true → mapHas (connect s nodeList).orderers k = true)
        ∧ (mapHas s.certificateAuthorities k = true →
            mapHas (connect s nodeList).certificateAuthorities k = true)) := by
  constructor
  · have h := connect_extends nodeList emptyConnState
      (fun n _ => ⟨rfl, rfl, rfl, rfl⟩) hnodup
    simpa [emptyConnState] using h
  · intro s k
    exact connect_preserves nodeList s k

theorem connect_populates_witness :
    ((["peer0", "orderer0", "ca0"] : List String).Nodup)
    ∧ sampleState.nodes = [("peer0", samplePeerNode), ("orderer0", sampleOrdererNode),
        ("ca0", sampleCANode)]
    ∧ sampleState.peers = [("peer0", "grpc://localhost:7051")]
    ∧ sampleState.orderers = [("orderer0", "grpc://localhost:7050")]
    ∧ sampleState.certificateAuthorities = [("ca0", "http://localhost:7054")]
    ∧ mapHas (connect
        (ConnState.mk [("old", sampleCANode)] [("old", "grpc://old:7051")]
          [("old", "grpc://old:7050")] [("old", "http://old:7054")])
        [samplePeerNode, sampleOrdererNode, sampleCANode]).orderers "old" = true := by
  obtain ⟨⟨h1, h2, h3, h4⟩, hpres⟩ := connect_populates
    [samplePeerNode, sampleOrdererNode, sampleCANode] (by decide)
  refine ⟨by decide, h1, h2, h3, h4, ?_⟩
  exact (hpres
    (ConnState.mk [("old", sampleCANode)] [("old", "grpc://old:7051")]
      [("old", "grpc://old:7050")] [("old", "http://old:7054")]) "old").2.2.1 (by decide)

theorem discoverChannels_ok_queries (s : ConnState) (env : Env) :
    ∀ (ps : List (String × String)) (acc : List (String × List String))
      (r : List (String × List String)),
      discoverChannels s env ps acc = .ok r →
      ∀ p ∈ ps, ∃ l, env.queryChannels p.1 = .ok l := by
  intro ps
  induction ps with
  | nil => intro acc r _ p hp; cases hp
  | cons a rest ih =>
    intro acc r h p hp
    obtain ⟨peerName, handle⟩ := a
    rcases hq : getAllChannelNames s env peerName with e | cl
    · simp [discoverChannels, hq] at h
    · simp only [discoverChannels, hq] at h
      rcases List.mem_cons.mp hp with h1 | h2
      · subst h1
        exact getAllChannelNames_ok_query s env peerName cl hq
      · exact ih (addChannelsForPeer acc peerName cl) r h p h2

/-- C2 counterexample: with one peer whose channel query fails with an
access-denied class error, the whole discovery fails with that error — the
peer does not contribute an empty channel set. -/
theorem discovery_accessDenied_counterexample :
    containsAccessDenied "access denied" = true
    ∧ getAllChannels sampleState
        { baseEnv with queryChannels := fun _ => .error "access denied" }
      = .error (.message "access denied")
    ∧ getAllChannels sampleState
        { baseEnv with queryChannels := fun _ => .error "access denied" }
      ≠ .ok [] := by
  refine ⟨by decide, by rfl, ?_⟩
  intro h
  have he : getAllChannels sampleState
      { baseEnv with queryChannels := fun _ => .error "access denied" }
      = .error (.message "access denied") := by rfl
  rw [he] at h
  cases h

/-- C2 amended: during channel discovery every per-peer query failure —
access-denied class included — propagates and fails the entire discovery
call: if discovery succeeded, then every registered peer's channel query
succeeded. -/
theorem discovery_propagates_every_error (s : ConnState) (env : Env)
    (res : List FabricChannel) (hok : getAllChannels s env = .ok res) :
    ∀ p ∈ s.peers, ∃ l, env.queryChannels p.1 = .ok l := by
  rcases hd : discoverChannels s env s.peers [] with e | raw
  · simp [getAllChannels, hd] at hok
  · exact discoverChannels_ok_queries s env s.peers [] raw hd

theorem discovery_propagates_every_error_witness :
    getAllChannels sampleState baseEnv
      = .ok [⟨"mychannel", ["peer0"], "orderer0"⟩]
    ∧ ∃ l, baseEnv.queryChannels "peer0" = .ok l := by
  have h : getAllChannels sampleState baseEnv = .ok [⟨"mychannel", ["peer0"], "orderer0"⟩] := by
    rfl
  refine ⟨h, ?_⟩
  have := discovery_propagates_every_error sampleState baseEnv
    [⟨"mychannel", ["peer0"], "orderer0"⟩] h ("peer0", "grpc://localhost:7051") (by decide)
  exact this

theorem endorsementFailure_blocksOrdering_witness :
    isBadResponse (.resp ⟨500, "endorsement simulation failed", []⟩) = true
    ∧ (instantiateUpgradeChaincode sampleState
        { baseEnv with instantiateResponses := [.resp ⟨500, "endorsement simulation failed", []⟩] }
        "cc1" "0.0.1" "mychannel" "init" [] false).1
        = .error (.message "endorsement simulation failed")
    ∧ Effect.sendBroadcast ∉
        (instantiateUpgradeChaincode sampleState
          { baseEnv with instantiateResponses := [.resp ⟨500, "endorsement simulation failed", []⟩] }
          "cc1" "0.0.1" "mychannel" "init" [] false).2 := by
  obtain ⟨e, h1, h2, h3⟩ := endorsementFailure_blocksOrdering sampleState
    { baseEnv with instantiateResponses := [.resp ⟨500, "endorsement simulation failed", []⟩] }
    "cc1" "0.0.1" "mychannel" "init" [] false
    ⟨.resp ⟨500, "endorsement simulation failed", []⟩, by decide, by decide⟩
  have hval : validateResponses
      (if false then baseEnv.upgradeResponses
        else [PropResult.resp ⟨500, "endorsement simulation failed", []⟩])
      = .error (.message "endorsement simulation failed") := by rfl
  have hmem : Effect.sendProposal ∈
      (instantiateUpgradeChaincode sampleState
        { baseEnv with instantiateResponses := [.resp ⟨500, "endorsement simulation failed", []⟩] }
        "cc1" "0.0.1" "mychannel" "init" [] false).2 := by
    rw [show (instantiateUpgradeChaincode sampleState
        { baseEnv with instantiateResponses := [.resp ⟨500, "endorsement simulation failed", []⟩] }
        "cc1" "0.0.1" "mychannel" "init" [] false).2 = [Effect.sendProposal] from rfl]
    simp
  have he : e = .message "endorsement simulation failed" := by
    have := h3 hmem
    rw [hval] at this
    exact (Except.error.injEq _ _).mp this.symm
  exact ⟨by decide, by rw [h1, he], h2⟩
